import Mathlib

/-!
# Verification of the Personal Expense Tracker core

Shallow embedding of `src/expense_tracker/app.py`: the validators, the
pending expense cache, the committed record store (the expenses CSV file,
modelled as a list of rows), the aggregation logic and the session gate.
Machine floats are modelled as exact rationals; Python exceptions
(`KeyError`, `ValueError`) are modelled with `Except String`.
-/

namespace ExpenseTracker

set_option maxRecDepth 8192

/-- Numeric value of a list of ASCII digit characters, most significant first
(the value `int` gives a digit string). -/
def toNum (l : List Char) : Nat :=
  l.foldl (fun a c => a * 10 + (c.toNat - 48)) 0

/-- A parsed calendar date, as produced by `datetime.strptime(s, "%Y-%m-%d")`. -/
structure Date where
  year : Nat
  month : Nat
  day : Nat
deriving DecidableEq, Repr

/-- Gregorian leap-year rule, as implemented by Python's `datetime`. -/
def isLeap (y : Nat) : Bool :=
  y % 4 == 0 && (y % 100 != 0 || y % 400 == 0)

/-- Number of days of month `m` in year `y` (Python `calendar` rule). -/
def daysInMonth (y m : Nat) : Nat :=
  if m == 2 then (if isLeap y then 29 else 28)
  else if m == 4 || m == 6 || m == 9 || m == 11 then 30
  else 31

/-- Validity of a `(year, month, day)` triple for Python's `datetime.date`
constructor: year within `MINYEAR = 1` to `MAXYEAR = 9999`, month `1..12`,
day within the month's length. -/
def validYmd (y m d : Nat) : Bool :=
  decide (1 ≤ y) && decide (y ≤ 9999) &&
  decide (1 ≤ m) && decide (m ≤ 12) &&
  decide (1 ≤ d) && decide (d ≤ daysInMonth y m)

/-- The code point of the value-0 digit of every run of ten consecutive
Unicode decimal-digit characters (general category `Nd`, Unicode 14.0 as
shipped with CPython): `re`'s `\d` in a `str` pattern (compiled without
`re.ASCII`) matches exactly the characters of these runs, and `int()` maps
such a character to its offset within its run. -/
def pyDigitStarts : List Nat :=
  [48, 1632, 1776, 1984, 2406, 2534, 2662, 2790, 2918, 3046, 3174, 3302, 3430,
   3558, 3664, 3792, 3872, 4160, 4240, 6112, 6160, 6470, 6608, 6784, 6800, 6992,
   7088, 7232, 7248, 42528, 43216, 43264, 43472, 43504, 43600, 44016, 65296,
   66720, 68912, 69734, 69872, 69942, 70096, 70384, 70736, 70864, 71248, 71360,
   71472, 71904, 72016, 72784, 73040, 73120, 92768, 92864, 93008, 120782,
   120792, 120802, 120812, 120822, 123200, 123632, 125264, 130032]

/-- The decimal value of a Unicode decimal-digit character (`none` when the
character is not one): the digit semantics shared by Python's `re` `\d` and
`int()`. -/
def pyDigitVal (c : Char) : Option Nat :=
  (pyDigitStarts.find? fun s => decide (s ≤ c.toNat) && decide (c.toNat < s + 10)).map
    fun s => c.toNat - s

/-- Python `re`'s `\d` in a `str` pattern: any Unicode decimal digit. -/
def isPyDigit (c : Char) : Bool :=
  (pyDigitVal c).isSome

/-- `int()` of a string of decimal-digit characters. -/
def pyNum (l : List Char) : Nat :=
  l.foldl (fun a c => a * 10 + (pyDigitVal c).getD 0) 0

/-- Consume the literal `-` of the `%Y-%m-%d` format. -/
def expectDash : List Char → Option (List Char)
  | c :: r => if c = '-' then some r else none
  | [] => none

/-- The `%m` pattern of `_strptime`'s TimeRE, `1[0-2]|0[1-9]|[1-9]`: its
alternatives in regex order, each successful one yielding `int` of the
matched text and the remaining input.  The bracket ranges are ASCII
literals, written here on code points (48 is `0`, 49 is `1`, 50 is `2`,
51 is `3`, 57 is `9`, 32 is the space). -/
def monthAlts (l : List Char) : List (Nat × List Char) :=
  (match l with
    | a :: b :: r =>
      if a.toNat = 49 ∧ 48 ≤ b.toNat ∧ b.toNat ≤ 50 then [(10 + (b.toNat - 48), r)]
      else []
    | _ => []) ++
  (match l with
    | a :: b :: r =>
      if a.toNat = 48 ∧ 49 ≤ b.toNat ∧ b.toNat ≤ 57 then [(b.toNat - 48, r)]
      else []
    | _ => []) ++
  (match l with
    | a :: r =>
      if 49 ≤ a.toNat ∧ a.toNat ≤ 57 then [(a.toNat - 48, r)]
      else []
    | _ => [])

/-- The `%d` pattern of `_strptime`'s TimeRE,
`3[0-1]|[1-2]\d|0[1-9]|[1-9]| [1-9]`: its alternatives in regex order (the
second one allows any Unicode decimal digit in second position, the last one
is a space followed by a digit), each successful one yielding `int` of the
matched text and the remaining input. -/
def dayAlts (l : List Char) : List (Nat × List Char) :=
  (match l with
    | a :: b :: r =>
      if a.toNat = 51 ∧ 48 ≤ b.toNat ∧ b.toNat ≤ 49 then [(30 + (b.toNat - 48), r)]
      else []
    | _ => []) ++
  (match l with
    | a :: b :: r =>
      if (a.toNat = 49 ∨ a.toNat = 50) ∧ isPyDigit b = true then
        [((a.toNat - 48) * 10 + (pyDigitVal b).getD 0, r)]
      else []
    | _ => []) ++
  (match l with
    | a :: b :: r =>
      if a.toNat = 48 ∧ 49 ≤ b.toNat ∧ b.toNat ≤ 57 then [(b.toNat - 48, r)]
      else []
    | _ => []) ++
  (match l with
    | a :: r =>
      if 49 ≤ a.toNat ∧ a.toNat ≤ 57 then [(a.toNat - 48, r)]
      else []
    | _ => []) ++
  (match l with
    | a :: b :: r =>
      if a.toNat = 32 ∧ 49 ≤ b.toNat ∧ b.toNat ≤ 57 then [(b.toNat - 48, r)]
      else []
    | _ => [])

/-- The continuation behind a `%m` alternative in the compiled format regex
`(?P<Y>\d\d\d\d)-(?P<m>...)-(?P<d>...)`: the literal `-`, then the first
`%d` alternative that matches (the regex returns its leftmost match; the
`%d` group is last, so no further backtracking constrains it). -/
def mdCont (p : Nat × List Char) : Option (Nat × Nat × List Char) :=
  match expectDash p.2 with
  | some r2 => ((dayAlts r2).head?).map fun q => (p.1, q.1, q.2)
  | none => none

/-- The character-list level of `strptime_Ymd` below: `%Y` is exactly four
Unicode decimal digits, then the literal `-`, then the month alternation
with its continuation (`List.findSome?` is the regex's
first-alternative-whose-continuation-succeeds rule). -/
def strptimeList (l : List Char) : Option Date :=
  match l with
  | y1 :: y2 :: y3 :: y4 :: rest1 =>
    if isPyDigit y1 && isPyDigit y2 && isPyDigit y3 && isPyDigit y4 then
      match expectDash rest1 with
      | some r1 =>
        match (monthAlts r1).findSome? mdCont with
        | some (m, d, rest) =>
          if !rest.isEmpty then none
          else if validYmd (pyNum [y1, y2, y3, y4]) m d then
            some ⟨pyNum [y1, y2, y3, y4], m, d⟩
          else none
        | none => none
      | none => none
    else none
  | _ => none

/-- Model of `datetime.strptime(s, "%Y-%m-%d")` (then taking the date):
`_strptime` matches the compiled pattern
`(?P<Y>\d\d\d\d)-(?P<m>1[0-2]|0[1-9]|[1-9])-(?P<d>3[0-1]|[1-2]\d|0[1-9]|[1-9]| [1-9])`
against the whole string (raising "unconverted data remains" when the match
leaves a remainder), converts the groups with `int()`, and builds the date
(raising on an invalid one).  Returns `none` exactly where Python raises
`ValueError`. -/
def strptime_Ymd (s : String) : Option Date :=
  strptimeList s.data

/-- The ten-character shape `\d\d\d\d-\d\d-\d\d` under Python `re`'s `\d`
(any Unicode decimal digit). -/
def dateShape : List Char → Bool
  | [c0, c1, c2, c3, c4, c5, c6, c7, c8, c9] =>
      isPyDigit c0 && isPyDigit c1 && isPyDigit c2 && isPyDigit c3 && c4 == '-' &&
      isPyDigit c5 && isPyDigit c6 && c7 == '-' && isPyDigit c8 && isPyDigit c9
  | _ => false

/-- Model of `re.compile(r'^\d{4}-\d{2}-\d{2}$').match(s)` being truthy under
Python `re` semantics: the fixed-length pattern consumes exactly ten
characters, and `$` matches at the end of the string or just before a newline
that is the last character.  So a match succeeds on a shaped ten-character
string, or on a shaped ten-character string followed by one trailing
newline. -/
def pyDateRegexMatch (s : String) : Bool :=
  dateShape s.data || (dateShape (s.data.take 10) && s.data.drop 10 == ['\n'])

/-- `validate_date` from app.py: the anchored regex check followed by
`datetime.strptime(date_string, '%Y-%m-%d')`, returning `False` when the
regex fails or strptime raises `ValueError`. -/
def validate_date (s : String) : Bool :=
  if !pyDateRegexMatch s then false
  else
    match strptime_Ymd s with
    | some _ => true
    | none => false

/-- Rational addition computed through `mkRat` (`ratAdd_eq` below proves it
equal to `+` on `Rat`); the embedding uses it so that concrete program runs
reduce inside the kernel, which `Rat.add` (being irreducible) does not. -/
def ratAdd (a b : Rat) : Rat :=
  mkRat (a.num * b.den + b.num * a.den) (a.den * b.den)

/-- Rational subtraction computed through `mkRat` (`ratSub_eq` below proves it
equal to `-` on `Rat`). -/
def ratSub (a b : Rat) : Rat :=
  mkRat (a.num * b.den - b.num * a.den) (a.den * b.den)

/-- Model of Python `float(s)` on plain decimal literals: optional sign, then
digits with an optional fractional part (`"5"`, `"-5"`, `"12.5"`, `"5."`,
`".5"`), denoting the exact decimal value (machine floats are modelled as
exact rationals).  Returns `none` where `float` raises `ValueError`.  (The
claims only evaluate amounts of this plain-decimal form; exponent, infinity
and nan spellings accepted by `float` are outside every claim's inputs.) -/
def parseFloat (s : String) : Option Rat :=
  let (sign, l1) : Int × List Char :=
    match s.data with
    | '-' :: rest => (-1, rest)
    | '+' :: rest => (1, rest)
    | l => (1, l)
  let intPart := l1.takeWhile Char.isDigit
  match l1.dropWhile Char.isDigit with
  | [] => if intPart.isEmpty then none else some (mkRat (sign * toNum intPart) 1)
  | '.' :: fracRest =>
    let fracPart := fracRest.takeWhile Char.isDigit
    if !(fracRest.dropWhile Char.isDigit).isEmpty then none
    else if intPart.isEmpty && fracPart.isEmpty then none
    else some (mkRat (sign * toNum (intPart ++ fracPart)) (10 ^ fracPart.length))
  | _ => none

/-- `validate_amount` from app.py: `float(amount)` must parse and the parsed
value must be `>= 0`. -/
def validate_amount (s : String) : Bool :=
  match parseFloat s with
  | some q => decide (0 ≤ q)
  | none => false

/-- The character class `[a-zA-Z0-9 ]`: ASCII letters, ASCII digits, space. -/
def isCatChar (c : Char) : Bool :=
  c.isAlphanum || c == ' '

/-- Model of `re.compile(r'^[class]+$').match(s)` being truthy under Python
`re` semantics, for a one-character class `p`: the greedy `+` takes the
maximal prefix of class characters, and `$` matches at the end of the string
or just before a newline that is the last character; backtracking over the
class characters reaches no other `$` position.  So a match succeeds iff the
maximal class prefix is non-empty and the remainder is empty or exactly one
newline. -/
def pyClassPlusDollar (p : Char → Bool) (l : List Char) : Bool :=
  !(l.takeWhile p).isEmpty &&
    ((l.dropWhile p).isEmpty || l.dropWhile p == ['\n'])

/-- `validate_category` from app.py: `len(category) > 0` and the anchored
regex `^[a-zA-Z0-9 ]+$` matches. -/
def validate_category (s : String) : Bool :=
  decide (0 < s.length) && pyClassPlusDollar isCatChar s.data

/-- `validate_description` from app.py: `len(description) > 0`. -/
def validate_description (s : String) : Bool :=
  decide (0 < s.length)

/-- A pending expense dictionary in `expense_cache`.  `add_expense` builds it
with keys `username`, `date`, `category`, `amount`, `description`; the key
`id` (read by `edit_expense` and `delete_expense`) may be absent, which is
`id = none` here (reading it then raises `KeyError`). -/
structure Expense where
  username : String
  date : String
  category : String
  amount : Rat
  description : String
  id : Option String
deriving DecidableEq, Repr

/-- A committed expense row of the `expenses.csv` record store, with the
`fieldnames` columns `username, date, category, amount, description` written
by `save_expenses` (amounts carried exactly, string round-tripping being
value-preserving). -/
structure Row where
  username : String
  date : String
  category : String
  amount : Rat
  description : String
deriving DecidableEq, Repr

/-- The row a cache dictionary is written to the CSV as. -/
def expToRow (e : Expense) : Row :=
  ⟨e.username, e.date, e.category, e.amount, e.description⟩

/-- The module-level mutable state of app.py: the `user_data` dictionary
(each user's `monthly_budget`, the merged view of the in-memory dictionary
and the users.json file), the `expense_cache` list of pending expenses, and
the contents of the expenses CSV file (the committed record store). -/
structure AppState where
  user_data : List (String × Rat)
  expense_cache : List Expense
  expense_file : List Row
deriving DecidableEq, Repr

/-- `get_user_monthly_budget` from app.py:
`user_data[username].get('monthly_budget', 0)`, and `0` for an unknown
user. -/
def get_user_monthly_budget (user_data : List (String × Rat)) (username : String) : Rat :=
  match user_data.lookup username with
  | some b => b
  | none => 0

/-- Outcome of the `add_expense` POST handler (which flash message fired). -/
inductive AddResult
  | invalidDate
  | invalidAmount
  | invalidCategory
  | invalidDescription
  | added
deriving DecidableEq, Repr

/-- The `add_expense` POST body from app.py: validate date, amount, category
and description in that order, returning with the cache untouched on the
first failure; on success append
`{username, date, category, amount: float(amount), description}` (no `id`
key) to `expense_cache`. -/
def add_expense (cache : List Expense)
    (username date category amount description : String) :
    AddResult × List Expense :=
  if !validate_date date then (.invalidDate, cache)
  else if !validate_amount amount then (.invalidAmount, cache)
  else if !validate_category category then (.invalidCategory, cache)
  else if !validate_description description then (.invalidDescription, cache)
  else
    (.added,
      cache ++ [⟨username, date, category, (parseFloat amount).getD 0, description, none⟩])

/-- Python list comprehension with a fallible predicate: elements are tested
left to right and the first raised exception aborts the whole comprehension. -/
def exceptFilter (f : α → Except String Bool) : List α → Except String (List α)
  | [] => .ok []
  | a :: l => do
    let b ← f a
    let r ← exceptFilter f l
    return if b then a :: r else r

/-- `delete_expense` from app.py: rebuilds the cache as
`[e for e in expense_cache if e['username'] == username and e['id'] != expense_id]`.
The conjunction short-circuits, so `e['id']` (a `KeyError` when absent) is
only read on records whose `username` matches. -/
def delete_expense (cache : List Expense) (username expense_id : String) :
    Except String (List Expense) :=
  exceptFilter
    (fun e =>
      if e.username == username then
        match e.id with
        | some j => .ok (j != expense_id)
        | none => .error "KeyError: id"
      else .ok false)
    cache

/-- Outcome of the `edit_expense` POST handler. -/
inductive EditResult
  | notFound
  | invalidDate
  | invalidAmount
  | invalidCategory
  | invalidDescription
  | edited
deriving DecidableEq, Repr

/-- The filter predicate of `edit_expense`'s lookup
`[e for e in expense_cache if e['username'] == username and e['id'] == expense_id]`. -/
def editMatches (username expense_id : String) (e : Expense) : Except String Bool :=
  if e.username == username then
    match e.id with
    | some j => .ok (j == expense_id)
    | none => .error "KeyError: id"
  else .ok false

/-- The four field assignments `edit_expense` performs on the matched record. -/
def applyEdit (description amount date category : String) (e : Expense) : Expense :=
  ⟨e.username, date, category, (parseFloat amount).getD 0, description, e.id⟩

/-- In-place mutation of `expense_to_edit[0]`: the first cache record whose
`(username, id)` matches is replaced, everything else kept. -/
def updateFirst (username expense_id : String) (f : Expense → Expense) :
    List Expense → List Expense
  | [] => []
  | e :: l =>
    if e.username == username && e.id == some expense_id then f e :: l
    else e :: updateFirst username expense_id f l

/-- The `edit_expense` POST handler from app.py: look the record up (a
`KeyError` can escape), redirect when absent, then validate date, amount,
category, description in that order, leaving the cache untouched on the
first failure; only when all four pass are the record's description, amount,
date and category overwritten. -/
def edit_expense (cache : List Expense) (username expense_id : String)
    (description amount date category : String) :
    Except String (EditResult × List Expense) := do
  let found ← exceptFilter (editMatches username expense_id) cache
  if found.isEmpty then return (.notFound, cache)
  else if !validate_date date then return (.invalidDate, cache)
  else if !validate_amount amount then return (.invalidAmount, cache)
  else if !validate_category category then return (.invalidCategory, cache)
  else if !validate_description description then return (.invalidDescription, cache)
  else
    return (.edited,
      updateFirst username expense_id (applyEdit description amount date category) cache)

/-- `save_expenses` from app.py: rewrite the CSV file with
`load_expenses() + [e for e in expense_cache if e['username'] == username]`
(the whole old file first, in order, then the user's pending records), then
drop the user's records from the cache.  `csv.DictWriter(..., fieldnames)`
raises `ValueError` on a dictionary with a key outside `fieldnames`, so a
cache record carrying an `id` key makes the write raise. -/
def save_expenses (st : AppState) (username : String) : Except String AppState :=
  let mine := st.expense_cache.filter (fun e => e.username == username)
  if mine.any (fun e => e.id.isSome) then
    .error "ValueError: dict contains fields not in fieldnames: id"
  else
    .ok ⟨st.user_data,
      st.expense_cache.filter (fun e => !(e.username == username)),
      st.expense_file ++ mine.map expToRow⟩

/-- One loop iteration of `calculate_total_expenses`: for a record of the
requested user, parse its date with `strptime` (a `ValueError` escapes) and
contribute the amount when the date's month equals `datetime.now().month`
— the month alone; the year is never compared. -/
def monthTerm (currentMonth : Nat) (username rowUser rowDate : String) (amount : Rat) :
    Except String Rat :=
  if rowUser == username then
    match strptime_Ymd rowDate with
    | some d => .ok (if d.month == currentMonth then amount else 0)
    | none => .error "ValueError: time data does not match format"
  else .ok 0

/-- `calculate_total_expenses` from app.py: fold over the CSV rows and then
over the cache, accumulating `monthTerm` contributions into the running
total. -/
def calculate_total_expenses (st : AppState) (now : Date) (username : String) :
    Except String Rat := do
  let fileTotal ← st.expense_file.foldlM
    (fun acc r => do
      let t ← monthTerm now.month username r.username r.date r.amount
      return ratAdd acc t)
    (0 : Rat)
  st.expense_cache.foldlM
    (fun acc e => do
      let t ← monthTerm now.month username e.username e.date e.amount
      return ratAdd acc t)
    fileTotal

/-- The three values `track_budget` renders. -/
structure BudgetView where
  monthly_budget : Rat
  total_expenses : Rat
  remaining_budget : Rat
deriving DecidableEq, Repr

/-- `track_budget` from app.py: read the budget, compute the total, render
`remaining_budget = monthly_budget - total_expenses`; nothing is stored. -/
def track_budget (st : AppState) (now : Date) (username : String) :
    Except String BudgetView := do
  let monthly_budget := get_user_monthly_budget st.user_data username
  let total_expenses ← calculate_total_expenses st now username
  return ⟨monthly_budget, total_expenses, ratSub monthly_budget total_expenses⟩

/-- `TOKEN_TIMEOUT_MINUTES = 10` from app.py. -/
def TOKEN_TIMEOUT_MINUTES : Rat := 10

/-- The three session keys app.py manipulates (`login` sets them, `logout`
pops them); each is `none` when the key is absent from the Flask session.
`login_time` is in minutes on an absolute clock (`datetime.now()` at login,
stored in ISO format). -/
structure Session where
  logged_in : Option Bool
  username : Option String
  login_time : Option Rat
deriving DecidableEq, Repr

/-- `has_token_timed_out` from app.py: with a recorded login time, timed out
iff `datetime.now() - login_time > timedelta(minutes=TOKEN_TIMEOUT_MINUTES)`;
with no `login_time` key in the session, timed out. -/
def has_token_timed_out (now : Rat) (sess : Session) : Bool :=
  match sess.login_time with
  | some t => decide (TOKEN_TIMEOUT_MINUTES < now - t)
  | none => true

/-- The `login_required` decorator's guard: the wrapped view runs iff
`'logged_in' in session and session['logged_in'] and not has_token_timed_out()`;
otherwise the request is redirected to the login page. -/
def login_required_allows (now : Rat) (sess : Session) : Bool :=
  sess.logged_in == some true && !has_token_timed_out now sess

/-- The protected `/add_expense` POST route: body guarded by
`login_required`; no handler on this route ever writes `session`, so the
session (in particular `login_time`) comes back unchanged. -/
def add_expense_route (now : Rat) (sess : Session) (st : AppState)
    (date category amount description : String) : Session × AppState :=
  if login_required_allows now sess then
    (sess,
      ⟨st.user_data,
        (add_expense st.expense_cache (sess.username.getD "") date category amount
            description).2,
        st.expense_file⟩)
  else (sess, st)

/-- The protected `/save_expenses` route. -/
def save_expenses_route (now : Rat) (sess : Session) (st : AppState) :
    Session × Except String AppState :=
  if login_required_allows now sess then
    (sess, save_expenses st (sess.username.getD ""))
  else (sess, .ok st)

/-- The protected `/delete_expense/<expense_id>` route. -/
def delete_expense_route (now : Rat) (sess : Session) (st : AppState)
    (expense_id : String) : Session × Except String AppState :=
  if login_required_allows now sess then
    (sess,
      (delete_expense st.expense_cache (sess.username.getD "") expense_id).map
        (fun c => ⟨st.user_data, c, st.expense_file⟩))
  else (sess, .ok st)

/-- The protected `/edit_expense/<expense_id>` POST route. -/
def edit_expense_route (now : Rat) (sess : Session) (st : AppState)
    (expense_id description amount date category : String) :
    Session × Except String AppState :=
  if login_required_allows now sess then
    (sess,
      (edit_expense st.expense_cache (sess.username.getD "") expense_id description
          amount date category).map
        (fun r => ⟨st.user_data, r.2, st.expense_file⟩))
  else (sess, .ok st)

/-- The protected `/track_budget` route; `none` stands for the redirect to
the login page. -/
def track_budget_route (now : Rat) (sess : Session) (st : AppState) (today : Date) :
    Session × Except String (Option BudgetView) :=
  if login_required_allows now sess then
    (sess, (track_budget st today (sess.username.getD "")).map some)
  else (sess, .ok none)

deriving instance DecidableEq for Except

/-! ## Definitions following the specification's words, for comparison -/

/-- The spec's category contract: non-empty and every character ASCII
alphanumeric or space (matching `[A-Za-z0-9 ]+` as the whole string). -/
def categorySpec (s : String) : Bool :=
  !s.data.isEmpty && s.data.all isCatChar

/-- The spec's notion of a real calendar date: month 1 to 12, day within the
month's length (respecting leap years), and a positive year (there is no
year zero in the calendar). -/
def isRealDate (y m d : Nat) : Bool :=
  decide (1 ≤ y) && decide (1 ≤ m) && decide (m ≤ 12) &&
  decide (1 ≤ d) && decide (d ≤ daysInMonth y m)

/-- The ten-character shape `\d\d\d\d-\d\d-\d\d` with `\d` read as an ASCII
digit, the natural language-neutral reading of the spec's regex. -/
def asciiDateShape : List Char → Bool
  | [c0, c1, c2, c3, c4, c5, c6, c7, c8, c9] =>
      c0.isDigit && c1.isDigit && c2.isDigit && c3.isDigit && c4 == '-' &&
      c5.isDigit && c6.isDigit && c7 == '-' && c8.isDigit && c9.isDigit
  | _ => false

/-- The spec's date contract: the string matches `^\d{4}-\d{2}-\d{2}$` as a
whole and its digits denote a real calendar date. -/
def isRealDateStr (s : String) : Bool :=
  asciiDateShape s.data &&
  isRealDate (toNum (s.data.take 4)) (toNum ((s.data.drop 5).take 2))
    (toNum ((s.data.drop 8).take 2))

/-- Whether a record's date string falls in the same calendar month AND year
as the reference date. -/
def inRefMonth (now : Date) (dateStr : String) : Bool :=
  match strptime_Ymd dateStr with
  | some d => d.month == now.month && d.year == now.year
  | none => false

/-- All of one owner's records, committed then pending, as (date, amount)
pairs. -/
def recordsOf (st : AppState) (username : String) : List (String × Rat) :=
  (st.expense_file.filter (fun r => r.username == username)).map
      (fun r => (r.date, r.amount)) ++
    (st.expense_cache.filter (fun e => e.username == username)).map
      (fun e => (e.date, e.amount))

/-- The spec's `monthlyTotal(owner, referenceDate)`: the sum of the amounts of
the owner's records, committed plus pending, whose date lies in the same
calendar month and year as the reference date. -/
def monthlyTotalSpec (st : AppState) (now : Date) (username : String) : Rat :=
  ((recordsOf st username).filter (fun x => inRefMonth now x.1)).foldl
    (fun acc x => ratAdd acc x.2) 0

/-! ## Concrete states used by the closed evaluations -/

/-- A record store holding a single committed record of alice dated May 2023. -/
def lastYearState : AppState :=
  ⟨[], [], [⟨"alice", "2023-05-01", "Food", 50, "groceries"⟩]⟩

/-- A pending record belonging to bob. -/
def bobPending : Expense :=
  ⟨"bob", "2024-05-02", "Food", 5, "bus fare", none⟩

/-- The pending record a valid `add_expense` call of alice creates. -/
def aliceAdded : Expense :=
  ⟨"alice", "2024-01-15", "Food", mkRat 25 2, "lunch", none⟩

/-- alice has budget 30; the store holds one committed May 2024 record of 50. -/
def overBudgetState : AppState :=
  ⟨[("alice", 30)], [], [⟨"alice", "2024-05-01", "Food", 50, "groceries"⟩]⟩

/-- One pending record each for alice and bob, one committed record of alice. -/
def mixedState : AppState :=
  ⟨[],
    [⟨"alice", "2024-05-01", "Food", 7, "coffee", none⟩,
      ⟨"bob", "2024-05-01", "Tea", 3, "tea", none⟩],
    [⟨"alice", "2024-04-01", "Rent", 1, "april"⟩]⟩

/-- A pending record of alice that carries an id, so that the edit lookup
finds it. -/
def aliceWithId : Expense :=
  ⟨"alice", "2024-01-01", "Food", 5, "snack", some "1"⟩

/-- The state `save_expenses mixedState "alice"` produces: alice's pending
record committed at the end of the file, bob's pending record still cached. -/
def savedMixedState : AppState :=
  ⟨[],
    [⟨"bob", "2024-05-01", "Tea", 3, "tea", none⟩],
    [⟨"alice", "2024-04-01", "Rent", 1, "april"⟩,
      ⟨"alice", "2024-05-01", "Food", 7, "coffee"⟩]⟩

/-! ## Bridge lemmas for the kernel-reducible rational arithmetic -/

theorem ratAdd_eq (a b : Rat) : ratAdd a b = a + b := by
  have ha : ((a.den : Rat)) ≠ 0 := Nat.cast_ne_zero.mpr a.den_nz
  have hb : ((b.den : Rat)) ≠ 0 := Nat.cast_ne_zero.mpr b.den_nz
  rw [ratAdd, Rat.mkRat_eq_div]
  push_cast
  conv_rhs => rw [← Rat.num_div_den a, ← Rat.num_div_den b]
  rw [div_add_div _ _ ha hb]
  ring_nf

theorem ratSub_eq (a b : Rat) : ratSub a b = a - b := by
  have ha : ((a.den : Rat)) ≠ 0 := Nat.cast_ne_zero.mpr a.den_nz
  have hb : ((b.den : Rat)) ≠ 0 := Nat.cast_ne_zero.mpr b.den_nz
  rw [ratSub, Rat.mkRat_eq_div]
  push_cast
  conv_rhs => rw [← Rat.num_div_den a, ← Rat.num_div_den b]
  rw [div_sub_div _ _ ha hb]
  ring_nf

/-! ## List helper lemmas -/

theorem takeWhile_append_stop {α : Type} (p : α → Bool) (t : List α) (c : α)
    (ht : ∀ x ∈ t, p x = true) (hc : p c = false) :
    (t ++ [c]).takeWhile p = t ∧ (t ++ [c]).dropWhile p = [c] := by
  induction t with
  | nil => simp [List.takeWhile_cons, List.dropWhile_cons, hc]
  | cons a t ih =>
    have hpa : p a = true := ht a (by simp)
    have hrest : ∀ x ∈ t, p x = true := fun x hx => ht x (by simp [hx])
    obtain ⟨ih1, ih2⟩ := ih hrest
    simp [List.takeWhile_cons, List.dropWhile_cons, hpa, ih1, ih2]

/-! ## Lemmas about the date machinery -/

theorem digit_toNat_bounds (c : Char) (h : c.isDigit = true) :
    48 ≤ c.toNat ∧ c.toNat ≤ 57 := by
  simp [Char.isDigit] at h
  obtain ⟨h1, h2⟩ := h
  simp [UInt32.le_def, Fin.le_def] at h1 h2
  exact ⟨h1, h2⟩

theorem toNum_four_le (a b c d : Char) (ha : a.isDigit = true) (hb : b.isDigit = true)
    (hc : c.isDigit = true) (hd : d.isDigit = true) : toNum [a, b, c, d] ≤ 9999 := by
  obtain ⟨ha1, ha2⟩ := digit_toNat_bounds a ha
  obtain ⟨hb1, hb2⟩ := digit_toNat_bounds b hb
  obtain ⟨hc1, hc2⟩ := digit_toNat_bounds c hc
  obtain ⟨hd1, hd2⟩ := digit_toNat_bounds d hd
  simp only [toNum, List.foldl_cons, List.foldl_nil]
  omega

theorem validYmd_eq_isRealDate (y m d : Nat) (hy : y ≤ 9999) :
    validYmd y m d = isRealDate y m d := by
  simp [validYmd, isRealDate, decide_eq_true hy, Bool.true_and, Bool.and_true]

/-- Exact characterization of the category validator: it accepts a string iff
it is a non-empty run of class characters, possibly followed by one trailing
newline (the Python `$` quirk). -/
theorem validate_category_eq_body (s : String) :
    validate_category s = true ↔
      ∃ t : List Char,
        (s.data = t ∨ s.data = t ++ ['\n']) ∧ t ≠ [] ∧ t.all isCatChar = true := by
  have hnl : isCatChar '\n' = false := rfl
  constructor
  · intro h
    simp only [validate_category, pyClassPlusDollar, Bool.and_eq_true, Bool.or_eq_true,
      Bool.not_eq_true', List.isEmpty_eq_false, List.isEmpty_iff, beq_iff_eq,
      decide_eq_true_eq] at h
    obtain ⟨hlen, hne, hrest⟩ := h
    refine ⟨s.data.takeWhile isCatChar, ?_, hne, ?_⟩
    · rcases hrest with hd | hd
      · left
        have hsplit := List.takeWhile_append_dropWhile isCatChar s.data
        rw [hd, List.append_nil] at hsplit
        exact hsplit.symm
      · right
        have hsplit := List.takeWhile_append_dropWhile isCatChar s.data
        rw [hd] at hsplit
        exact hsplit.symm
    · exact List.all_eq_true.mpr fun x hx => List.mem_takeWhile_imp hx
  · rintro ⟨t, ht, hne, hall⟩
    have hallP : ∀ x ∈ t, isCatChar x = true := List.all_eq_true.mp hall
    rcases ht with hd | hd
    · have htw : s.data.takeWhile isCatChar = s.data :=
        List.takeWhile_eq_self_iff.mpr (by rw [hd]; exact hallP)
      have hdw : s.data.dropWhile isCatChar = [] :=
        List.dropWhile_eq_nil_iff.mpr (by rw [hd]; exact hallP)
      have hlen : 0 < s.length := by
        have hnil : s.data ≠ [] := by rw [hd]; exact hne
        exact Nat.pos_of_ne_zero fun hz => hnil (List.length_eq_zero.mp hz)
      rw [validate_category, pyClassPlusDollar, htw, hdw, hd]
      rw [decide_eq_true hlen, List.isEmpty_eq_false.mpr hne]
      rfl
    · obtain ⟨htw, hdw⟩ := takeWhile_append_stop isCatChar t '\n' hallP hnl
      rw [← hd] at htw hdw
      have hlen : 0 < s.length := by
        have hnil : s.data ≠ [] := by rw [hd]; simp
        exact Nat.pos_of_ne_zero fun hz => hnil (List.length_eq_zero.mp hz)
      rw [validate_category, pyClassPlusDollar, htw, hdw]
      rw [decide_eq_true hlen, List.isEmpty_eq_false.mpr hne]
      rfl

/-- C6 (corrected): `validateCategory(s)` is true iff `s` is a non-empty run
of ASCII alphanumeric or space characters, or such a run followed by exactly
one trailing newline (Python's `$` matches just before a final newline); in
particular `validateCategory("Food 2")` is true and `validateCategory("")`
is false. -/
theorem validate_category_characterization :
    (∀ s : String, validate_category s = true ↔
      ∃ t : List Char,
        (s.data = t ∨ s.data = t ++ ['\n']) ∧ t ≠ [] ∧ t.all isCatChar = true) ∧
    validate_category "Food 2" = true ∧ validate_category "" = false :=
  ⟨validate_category_eq_body, by decide, by decide⟩

/-- C6 counterexample: the claim's "true iff non-empty and every character is
ASCII alphanumeric or space" fails on `"A\n"`: the code accepts it although
it contains a newline. -/
theorem validate_category_newline_cex :
    validate_category "A\n" = true ∧ categorySpec "A\n" = false := by decide

theorem uint32_eq_of_toNat (a b : UInt32) (h : a.toNat = b.toNat) : a = b := by
  cases a with
  | mk v =>
    cases b with
    | mk w =>
      congr 1
      exact BitVec.eq_of_toNat_eq h

/-- Characters are equal iff their code points are. -/
theorem char_eq_iff_toNat (a b : Char) : a = b ↔ a.toNat = b.toNat :=
  ⟨fun h => by rw [h], fun h => Char.ext (uint32_eq_of_toNat a.val b.val h)⟩

/-- A character of the ASCII digit run has Python digit value its offset
from `0` (the run starting at 48 heads the table). -/
theorem pyDigitVal_ascii (c : Char) (h1 : 48 ≤ c.toNat) (h2 : c.toNat ≤ 57) :
    pyDigitVal c = some (c.toNat - 48) := by
  rw [pyDigitVal, pyDigitStarts]
  rw [List.find?_cons_of_pos]
  · rfl
  · simp only [Bool.and_eq_true, decide_eq_true_eq]
    omega

theorem isPyDigit_ascii (c : Char) (h1 : 48 ≤ c.toNat) (h2 : c.toNat ≤ 57) :
    isPyDigit c = true := by
  rw [isPyDigit, pyDigitVal_ascii c h1 h2]
  rfl

/-- `Char.isDigit` in terms of code points. -/
theorem isDigit_iff_toNat (c : Char) :
    c.isDigit = true ↔ 48 ≤ c.toNat ∧ c.toNat ≤ 57 := by
  constructor
  · exact digit_toNat_bounds c
  · rintro ⟨ha, hb⟩
    simp only [Char.isDigit, Bool.and_eq_true, decide_eq_true_eq, ge_iff_le]
    constructor
    · rw [UInt32.le_def, BitVec.le_def]
      exact ha
    · rw [UInt32.le_def, BitVec.le_def]
      exact hb

/-- Below code point 128 the only Python digits are the ASCII ones (every
other run of the table starts at 128 or beyond). -/
theorem ascii_bounds_of_isPyDigit (c : Char) (hpd : isPyDigit c = true)
    (hlt : c.toNat < 128) : 48 ≤ c.toNat ∧ c.toNat ≤ 57 := by
  rw [isPyDigit] at hpd
  cases hfind : pyDigitStarts.find?
      (fun s => decide (s ≤ c.toNat) && decide (c.toNat < s + 10)) with
  | none => rw [pyDigitVal, hfind] at hpd; simp at hpd
  | some s =>
    have hp := List.find?_some hfind
    have hmem := List.mem_of_find?_eq_some hfind
    simp only [Bool.and_eq_true, decide_eq_true_eq] at hp
    have hall : ∀ x ∈ pyDigitStarts, x = 48 ∨ 128 ≤ x := by decide
    rcases hall s hmem with rfl | hge
    · omega
    · omega

theorem isPyDigit_of_isDigit (c : Char) (h : c.isDigit = true) :
    isPyDigit c = true := by
  obtain ⟨h1, h2⟩ := (isDigit_iff_toNat c).mp h
  exact isPyDigit_ascii c h1 h2

/-- The ASCII reading of the shape implies the Unicode reading. -/
theorem dateShape_of_ascii (l : List Char) (h : asciiDateShape l = true) :
    dateShape l = true := by
  rcases l with _ | ⟨a0, _ | ⟨a1, _ | ⟨a2, _ | ⟨a3, _ | ⟨a4, _ | ⟨a5, _ | ⟨a6, _ |
    ⟨a7, _ | ⟨a8, _ | ⟨a9, _ | ⟨a10, tl⟩⟩⟩⟩⟩⟩⟩⟩⟩⟩⟩ <;>
    simp only [asciiDateShape, Bool.and_eq_true, beq_iff_eq] at h
  all_goals try exact absurd h Bool.false_ne_true
  rcases h with ⟨⟨⟨⟨⟨⟨⟨⟨⟨h0, h1⟩, h2⟩, h3⟩, h4⟩, h5⟩, h6⟩, h7⟩, h8⟩, h9⟩
  simp [dateShape, isPyDigit_of_isDigit _ h0, isPyDigit_of_isDigit _ h1,
    isPyDigit_of_isDigit _ h2, isPyDigit_of_isDigit _ h3, isPyDigit_of_isDigit _ h5,
    isPyDigit_of_isDigit _ h6, isPyDigit_of_isDigit _ h8, isPyDigit_of_isDigit _ h9,
    h4, h7]

/-- A list the ten-character Unicode shape accepts is literally four digits,
a dash, two digits, a dash, two digits. -/
theorem dateShape_cases (l : List Char) (h : dateShape l = true) :
    ∃ c0 c1 c2 c3 c5 c6 c8 c9 : Char,
      l = [c0, c1, c2, c3, '-', c5, c6, '-', c8, c9] ∧
      isPyDigit c0 = true ∧ isPyDigit c1 = true ∧ isPyDigit c2 = true ∧
      isPyDigit c3 = true ∧ isPyDigit c5 = true ∧ isPyDigit c6 = true ∧
      isPyDigit c8 = true ∧ isPyDigit c9 = true := by
  rcases l with _ | ⟨a0, _ | ⟨a1, _ | ⟨a2, _ | ⟨a3, _ | ⟨a4, _ | ⟨a5, _ | ⟨a6, _ |
    ⟨a7, _ | ⟨a8, _ | ⟨a9, _ | ⟨a10, tl⟩⟩⟩⟩⟩⟩⟩⟩⟩⟩⟩ <;>
    simp only [dateShape, Bool.and_eq_true, beq_iff_eq] at h
  all_goals try exact absurd h Bool.false_ne_true
  rcases h with ⟨⟨⟨⟨⟨⟨⟨⟨⟨h0, h1⟩, h2⟩, h3⟩, h4⟩, h5⟩, h6⟩, h7⟩, h8⟩, h9⟩
  subst h4
  subst h7
  exact ⟨a0, a1, a2, a3, a5, a6, a8, a9, rfl, h0, h1, h2, h3, h5, h6, h8, h9⟩

theorem daysInMonth_le_31 (y m : Nat) : daysInMonth y m ≤ 31 := by
  rw [daysInMonth]
  split
  · split <;> omega
  · split <;> omega

theorem validYmd_eq_false_of_month (y m d : Nat) (h : ¬(1 ≤ m ∧ m ≤ 12)) :
    validYmd y m d = false := by
  rw [validYmd]
  by_cases h1 : 1 ≤ m
  · have h2 : ¬(m ≤ 12) := fun hc => h ⟨h1, hc⟩
    simp [h2]
  · simp [h1]

theorem validYmd_eq_false_of_day (y m d : Nat) (h : ¬(1 ≤ d ∧ d ≤ 31)) :
    validYmd y m d = false := by
  rw [validYmd]
  by_cases h1 : 1 ≤ d
  · have h2 : ¬(d ≤ daysInMonth y m) := fun hc =>
      h ⟨h1, hc.trans (daysInMonth_le_31 y m)⟩
    simp [h2]
  · simp [h1]

/-- `toNum` of a two-character list in closed form. -/
theorem toNum_two_eq (a b : Char) :
    toNum [a, b] = (a.toNat - 48) * 10 + (b.toNat - 48) := by
  simp only [toNum, List.foldl_cons, List.foldl_nil]
  omega

/-- `int()` agrees with the ASCII digit value on ASCII digit strings. -/
theorem pyNum_ascii_four (a b c d : Char)
    (ha : 48 ≤ a.toNat ∧ a.toNat ≤ 57) (hb : 48 ≤ b.toNat ∧ b.toNat ≤ 57)
    (hc : 48 ≤ c.toNat ∧ c.toNat ≤ 57) (hd : 48 ≤ d.toNat ∧ d.toNat ≤ 57) :
    pyNum [a, b, c, d] = toNum [a, b, c, d] := by
  simp only [pyNum, toNum, List.foldl_cons, List.foldl_nil,
    pyDigitVal_ascii a ha.1 ha.2, pyDigitVal_ascii b hb.1 hb.2,
    pyDigitVal_ascii c hc.1 hc.2, pyDigitVal_ascii d hd.1 hd.2, Option.getD_some]

/-- The first `%d` alternative matching two ASCII digits: a day value of 1
to 31 consumes both characters, any other leading digit 1-9 falls back to
the one-character alternative, and `00` fails. -/
theorem dayAlts_step (b c : Char) (l : List Char)
    (hb1 : 48 ≤ b.toNat) (hb2 : b.toNat ≤ 57) (hc1 : 48 ≤ c.toNat) (hc2 : c.toNat ≤ 57) :
    (dayAlts (b :: c :: l)).head? =
      if 1 ≤ (b.toNat - 48) * 10 + (c.toNat - 48) ∧
          (b.toNat - 48) * 10 + (c.toNat - 48) ≤ 31 then
        some ((b.toNat - 48) * 10 + (c.toNat - 48), l)
      else if 1 ≤ b.toNat - 48 then some (b.toNat - 48, c :: l)
      else none := by
  have hpc : isPyDigit c = true := isPyDigit_ascii c hc1 hc2
  have hval : (pyDigitVal c).getD 0 = c.toNat - 48 := by
    rw [pyDigitVal_ascii c hc1 hc2]
    rfl
  simp only [dayAlts, hpc, hval, eq_self_iff_true, and_true]
  by_cases h1 : b.toNat = 51 ∧ 48 ≤ c.toNat ∧ c.toNat ≤ 49
  · rw [if_pos h1, if_neg (by omega), if_neg (by omega), if_pos (by omega),
      if_neg (by omega)]
    have he : (b.toNat - 48) * 10 + (c.toNat - 48) = 30 + (c.toNat - 48) := by omega
    rw [if_pos (by omega)]
    simp [he]
  · by_cases h2 : b.toNat = 49 ∨ b.toNat = 50
    · rw [if_neg h1, if_pos h2, if_neg (by omega), if_pos (by omega), if_neg (by omega)]
      rw [if_pos (by omega)]
      simp
    · by_cases h3 : b.toNat = 48 ∧ 49 ≤ c.toNat ∧ c.toNat ≤ 57
      · rw [if_neg h1, if_neg h2, if_pos h3, if_neg (by omega), if_neg (by omega)]
        have he : (b.toNat - 48) * 10 + (c.toNat - 48) = c.toNat - 48 := by omega
        rw [if_pos (by omega)]
        simp [he]
      · by_cases h4 : 49 ≤ b.toNat
        · rw [if_neg h1, if_neg h2, if_neg h3, if_pos (by omega), if_neg (by omega)]
          rw [if_neg (by omega), if_pos (by omega)]
          simp
        · rw [if_neg h1, if_neg h2, if_neg h3, if_neg (by omega), if_neg (by omega)]
          rw [if_neg (by omega), if_neg (by omega)]
          simp

/-- The `%m` alternation followed by `-%d` on two ASCII month digits: the
regex (with its backtracking) accepts exactly the month values 1 to 12, and
hands the rest of the string to the `%d` alternation. -/
theorem month_day_match (b c : Char) (l : List Char)
    (hb1 : 48 ≤ b.toNat) (hb2 : b.toNat ≤ 57) (hc1 : 48 ≤ c.toNat) (hc2 : c.toNat ≤ 57) :
    (monthAlts (b :: c :: '-' :: l)).findSome? mdCont =
      if 1 ≤ (b.toNat - 48) * 10 + (c.toNat - 48) ∧
          (b.toNat - 48) * 10 + (c.toNat - 48) ≤ 12 then
        ((dayAlts l).head?).map fun q =>
          ((b.toNat - 48) * 10 + (c.toNat - 48), q.1, q.2)
      else none := by
  have hcdash : ¬(c = '-') := by
    intro h
    have h45 : c.toNat = 45 := by rw [h]; rfl
    omega
  have hcont3 : ∀ v : Nat, mdCont (v, c :: '-' :: l) = none := by
    intro v
    simp [mdCont, expectDash, hcdash]
  have hcont2 : ∀ v : Nat, mdCont (v, '-' :: l) =
      ((dayAlts l).head?).map fun q => (v, q.1, q.2) := by
    intro v
    simp [mdCont, expectDash]
  simp only [monthAlts]
  by_cases h1 : b.toNat = 49 ∧ 48 ≤ c.toNat ∧ c.toNat ≤ 50
  · rw [if_pos h1, if_neg (by omega), if_pos (by omega)]
    simp only [List.cons_append, List.nil_append]
    rw [List.findSome?_cons, hcont2]
    cases hd : (dayAlts l).head? with
    | some q =>
      have he : (b.toNat - 48) * 10 + (c.toNat - 48) = 10 + (c.toNat - 48) := by omega
      rw [if_pos (by omega)]
      simp [he]
    | none =>
      rw [if_pos (by omega)]
      simp [List.findSome?_cons, hcont3]
  · by_cases h2 : b.toNat = 48 ∧ 49 ≤ c.toNat ∧ c.toNat ≤ 57
    · rw [if_neg h1, if_pos h2, if_neg (by omega)]
      simp only [List.cons_append, List.nil_append, List.append_nil]
      rw [List.findSome?_cons, hcont2]
      cases hd : (dayAlts l).head? with
      | some q =>
        have he : (b.toNat - 48) * 10 + (c.toNat - 48) = c.toNat - 48 := by omega
        rw [if_pos (by omega)]
        simp [he]
      | none =>
        rw [if_pos (by omega)]
        simp
    · by_cases h3 : 49 ≤ b.toNat
      · rw [if_neg h1, if_neg h2, if_pos (by omega)]
        simp only [List.nil_append]
        rw [List.findSome?_cons, hcont3]
        rw [if_neg (by omega)]
        simp
      · rw [if_neg h1, if_neg h2, if_neg (by omega)]
        rw [if_neg (by omega)]
        simp

/-- Computation of the strptime model on a shaped ten-character ASCII prefix
followed by anything: it succeeds exactly when the remainder is empty and
the digits form a valid calendar date. -/
theorem strptimeList_shaped (c0 c1 c2 c3 c5 c6 c8 c9 : Char) (rest : List Char)
    (h0 : 48 ≤ c0.toNat ∧ c0.toNat ≤ 57) (h1 : 48 ≤ c1.toNat ∧ c1.toNat ≤ 57)
    (h2 : 48 ≤ c2.toNat ∧ c2.toNat ≤ 57) (h3 : 48 ≤ c3.toNat ∧ c3.toNat ≤ 57)
    (h5 : 48 ≤ c5.toNat ∧ c5.toNat ≤ 57) (h6 : 48 ≤ c6.toNat ∧ c6.toNat ≤ 57)
    (h8 : 48 ≤ c8.toNat ∧ c8.toNat ≤ 57) (h9 : 48 ≤ c9.toNat ∧ c9.toNat ≤ 57) :
    strptimeList ([c0, c1, c2, c3, '-', c5, c6, '-', c8, c9] ++ rest) =
      if rest.isEmpty &&
          validYmd (toNum [c0, c1, c2, c3]) (toNum [c5, c6]) (toNum [c8, c9]) then
        some ⟨toNum [c0, c1, c2, c3], toNum [c5, c6], toNum [c8, c9]⟩
      else none := by
  simp only [List.cons_append, List.nil_append]
  simp only [strptimeList, isPyDigit_ascii c0 h0.1 h0.2, isPyDigit_ascii c1 h1.1 h1.2,
    isPyDigit_ascii c2 h2.1 h2.2, isPyDigit_ascii c3 h3.1 h3.2, Bool.and_self,
    if_true, expectDash, ite_true, eq_self_iff_true]
  rw [month_day_match c5 c6 (c8 :: c9 :: rest) h5.1 h5.2 h6.1 h6.2]
  by_cases hM : 1 ≤ (c5.toNat - 48) * 10 + (c6.toNat - 48) ∧
      (c5.toNat - 48) * 10 + (c6.toNat - 48) ≤ 12
  · rw [if_pos hM]
    rw [dayAlts_step c8 c9 rest h8.1 h8.2 h9.1 h9.2]
    by_cases hD : 1 ≤ (c8.toNat - 48) * 10 + (c9.toNat - 48) ∧
        (c8.toNat - 48) * 10 + (c9.toNat - 48) ≤ 31
    · rw [if_pos hD]
      rw [pyNum_ascii_four c0 c1 c2 c3 h0 h1 h2 h3]
      rw [show (c5.toNat - 48) * 10 + (c6.toNat - 48) = toNum [c5, c6] from
        (toNum_two_eq c5 c6).symm]
      rw [show (c8.toNat - 48) * 10 + (c9.toNat - 48) = toNum [c8, c9] from
        (toNum_two_eq c8 c9).symm]
      cases hre : rest.isEmpty with
      | true => simp [hre]
      | false => simp [hre]
    · rw [if_neg hD]
      have hv : validYmd (toNum [c0, c1, c2, c3]) (toNum [c5, c6]) (toNum [c8, c9]) =
          false := by
        apply validYmd_eq_false_of_day
        rw [toNum_two_eq c8 c9]
        exact hD
      by_cases h8v : 1 ≤ c8.toNat - 48
      · rw [if_pos h8v]
        simp [hv]
      · rw [if_neg h8v]
        simp [hv]
  · rw [if_neg hM]
    have hv : validYmd (toNum [c0, c1, c2, c3]) (toNum [c5, c6]) (toNum [c8, c9]) =
        false := by
      apply validYmd_eq_false_of_month
      rw [toNum_two_eq c5 c6]
      exact hM
    simp [hv]

/-- On all-ASCII strings the date validator agrees with the spec-side
contract. -/
theorem validate_date_eq_body_ascii (s : String)
    (hascii : ∀ c ∈ s.data, c.toNat < 128) :
    validate_date s = isRealDateStr s := by
  by_cases hsh : dateShape s.data = true
  · obtain ⟨c0, c1, c2, c3, c5, c6, c8, c9, hl, d0, d1, d2, d3, d5, d6, d8, d9⟩ :=
      dateShape_cases s.data hsh
    have hmem : ∀ c ∈ ([c0, c1, c2, c3, '-', c5, c6, '-', c8, c9] : List Char),
        c.toNat < 128 := fun c hc => hascii c (hl ▸ hc)
    have b0 := ascii_bounds_of_isPyDigit c0 d0 (hmem c0 (by simp))
    have b1 := ascii_bounds_of_isPyDigit c1 d1 (hmem c1 (by simp))
    have b2 := ascii_bounds_of_isPyDigit c2 d2 (hmem c2 (by simp))
    have b3 := ascii_bounds_of_isPyDigit c3 d3 (hmem c3 (by simp))
    have b5 := ascii_bounds_of_isPyDigit c5 d5 (hmem c5 (by simp))
    have b6 := ascii_bounds_of_isPyDigit c6 d6 (hmem c6 (by simp))
    have b8 := ascii_bounds_of_isPyDigit c8 d8 (hmem c8 (by simp))
    have b9 := ascii_bounds_of_isPyDigit c9 d9 (hmem c9 (by simp))
    have hst := strptimeList_shaped c0 c1 c2 c3 c5 c6 c8 c9 [] b0 b1 b2 b3 b5 b6 b8 b9
    rw [List.append_nil] at hst
    simp only [List.isEmpty_nil, Bool.true_and] at hst
    have hash : asciiDateShape [c0, c1, c2, c3, '-', c5, c6, '-', c8, c9] = true := by
      simp [asciiDateShape, (isDigit_iff_toNat c0).mpr b0, (isDigit_iff_toNat c1).mpr b1,
        (isDigit_iff_toNat c2).mpr b2, (isDigit_iff_toNat c3).mpr b3,
        (isDigit_iff_toNat c5).mpr b5, (isDigit_iff_toNat c6).mpr b6,
        (isDigit_iff_toNat c8).mpr b8, (isDigit_iff_toNat c9).mpr b9]
    have hy : toNum [c0, c1, c2, c3] ≤ 9999 :=
      toNum_four_le c0 c1 c2 c3 ((isDigit_iff_toNat c0).mpr b0)
        ((isDigit_iff_toNat c1).mpr b1) ((isDigit_iff_toNat c2).mpr b2)
        ((isDigit_iff_toNat c3).mpr b3)
    rw [validate_date, pyDateRegexMatch, strptime_Ymd, isRealDateStr, hl]
    rw [show dateShape [c0, c1, c2, c3, '-', c5, c6, '-', c8, c9] = true from hl ▸ hsh]
    rw [hst, hash]
    have htake : [c0, c1, c2, c3, '-', c5, c6, '-', c8, c9].take 4 = [c0, c1, c2, c3] := rfl
    have hdrop5 : ([c0, c1, c2, c3, '-', c5, c6, '-', c8, c9].drop 5).take 2 =
      [c5, c6] := rfl
    have hdrop8 : ([c0, c1, c2, c3, '-', c5, c6, '-', c8, c9].drop 8).take 2 =
      [c8, c9] := rfl
    rw [htake, hdrop5, hdrop8, validYmd_eq_isRealDate _ _ _ hy]
    cases hv : isRealDate (toNum [c0, c1, c2, c3]) (toNum [c5, c6]) (toNum [c8, c9]) <;>
      simp [hv]
  · have hsh0 : dateShape s.data = false := Bool.eq_false_iff.mpr hsh
    have hashf : asciiDateShape s.data = false := by
      cases ha : asciiDateShape s.data with
      | false => rfl
      | true => exact absurd (dateShape_of_ascii s.data ha) hsh
    by_cases hnl : dateShape (s.data.take 10) = true ∧ s.data.drop 10 = ['\n']
    · obtain ⟨hsh10, hdrop⟩ := hnl
      obtain ⟨c0, c1, c2, c3, c5, c6, c8, c9, hl, d0, d1, d2, d3, d5, d6, d8, d9⟩ :=
        dateShape_cases _ hsh10
      have hsplit : s.data = [c0, c1, c2, c3, '-', c5, c6, '-', c8, c9] ++ ['\n'] := by
        conv_lhs => rw [← List.take_append_drop 10 s.data]
        rw [hl, hdrop]
      have hmem : ∀ c ∈ ([c0, c1, c2, c3, '-', c5, c6, '-', c8, c9] : List Char),
          c.toNat < 128 := by
        intro c hc
        apply hascii
        rw [hsplit]
        exact List.mem_append_left _ hc
      have b0 := ascii_bounds_of_isPyDigit c0 d0 (hmem c0 (by simp))
      have b1 := ascii_bounds_of_isPyDigit c1 d1 (hmem c1 (by simp))
      have b2 := ascii_bounds_of_isPyDigit c2 d2 (hmem c2 (by simp))
      have b3 := ascii_bounds_of_isPyDigit c3 d3 (hmem c3 (by simp))
      have b5 := ascii_bounds_of_isPyDigit c5 d5 (hmem c5 (by simp))
      have b6 := ascii_bounds_of_isPyDigit c6 d6 (hmem c6 (by simp))
      have b8 := ascii_bounds_of_isPyDigit c8 d8 (hmem c8 (by simp))
      have b9 := ascii_bounds_of_isPyDigit c9 d9 (hmem c9 (by simp))
      have hst := strptimeList_shaped c0 c1 c2 c3 c5 c6 c8 c9 ['\n'] b0 b1 b2 b3 b5 b6
        b8 b9
      have hnone : strptime_Ymd s = none := by
        rw [strptime_Ymd, hsplit, hst]
        rfl
      have hmatch : pyDateRegexMatch s = true := by
        rw [pyDateRegexMatch, hsh0]
        simp [hsh10, hdrop]
      rw [validate_date, hmatch, hnone, isRealDateStr, hashf]
      rfl
    · have hm : pyDateRegexMatch s = false := by
        rw [pyDateRegexMatch, hsh0]
        simp only [Bool.false_or, Bool.and_eq_false_iff]
        rcases Decidable.not_and_iff_or_not.mp hnl with hc | hc
        · exact Or.inl (Bool.eq_false_iff.mpr hc)
        · refine Or.inr ?_
          cases hb : s.data.drop 10 == ['\n'] with
          | false => rfl
          | true => exact absurd (beq_iff_eq.mp hb) hc
      rw [validate_date, hm, isRealDateStr, hashf]
      rfl

/-- C7 counterexample: the claim's universal "true iff the string matches
`^\d{4}-\d{2}-\d{2}$` and denotes a real calendar date" fails at
`"٢٠٢٤-02-29"` (Arabic-Indic year digits): Python `re`'s `\d` and
`strptime`'s `%Y` match any Unicode decimal digit and `int()` converts them,
so the program returns True, while the string does not match the regex read
over ASCII digits. -/
theorem validate_date_unicode_cex :
    validate_date "٢٠٢٤-02-29" = true ∧ isRealDateStr "٢٠٢٤-02-29" = false := by
  decide

/-- C7 (corrected): restricted to ASCII strings, `validateDate(s)` is true
iff `s` matches `^\d{4}-\d{2}-\d{2}$` as a whole and denotes a real calendar
date respecting month lengths and leap years; in particular
`validateDate("2024-02-30")` is false and `validateDate("2024-02-29")` is
true.  (Outside ASCII the program also accepts strings whose year digits —
or second day digit — are non-ASCII Unicode decimal digits, and the regex
alone would accept a shaped string with one trailing newline, which
`strptime` then rejects as unconverted data.) -/
theorem validate_date_matches_spec_ascii :
    (∀ s : String, (∀ c ∈ s.data, c.toNat < 128) → validate_date s = isRealDateStr s) ∧
    validate_date "2024-02-30" = false ∧ validate_date "2024-02-29" = true :=
  ⟨validate_date_eq_body_ascii, by decide, by decide⟩

/-- Witness for C7 at an all-ASCII string. -/
theorem validate_date_matches_spec_ascii_witness :
    validate_date "2024-02-29" = isRealDateStr "2024-02-29" :=
  validate_date_matches_spec_ascii.1 "2024-02-29" (by decide)

/-- C1 (code_bug): `calculate_total_expenses` compares only
`expense_date.month == datetime.now().month` and never the year.  With the
store holding a single record of alice of 50 dated 2023-05-01 and the
reference date 2024-05-15, the code returns 50, while the sum over records
of the same calendar month AND year (the spec's `monthlyTotal`) is 0. -/
theorem calculate_total_counts_other_years :
    calculate_total_expenses lastYearState ⟨2024, 5, 15⟩ "alice" = Except.ok 50 ∧
    monthlyTotalSpec lastYearState ⟨2024, 5, 15⟩ "alice" = 0 := by decide

/-- C2 (code_bug): `delete_expense` rebuilds the cache as
`[e for e in expense_cache if e['username'] == username and e['id'] != expense_id]`,
keeping only the calling owner's non-matching records: when alice (zero
pending records) deletes id "1", bob's pending record is silently removed
from the cache, although the claim (and the spec) say every other owner's
pending records are left unchanged. -/
theorem delete_expense_drops_other_owners :
    delete_expense [bobPending] "alice" "1" = Except.ok [] ∧
    bobPending.username ≠ "alice" := by decide

/-- C3 (code_bug): a valid `add_expense` appends the record with exactly the
given fields but never assigns any id (the dictionary has no `id` key), so
no fresh id exists, and the owner's own later `delete_expense` (which reads
`e['id']`) raises `KeyError`. -/
theorem add_expense_assigns_no_id :
    add_expense [] "alice" "2024-01-15" "Food" "12.5" "lunch" =
      (AddResult.added, [aliceAdded]) ∧
    aliceAdded.id = none ∧
    delete_expense [aliceAdded] "alice" "7" = Except.error "KeyError: id" := by decide

/-- C8 (confirmed): `track_budget` renders
`remaining_budget = monthly_budget - total_expenses` as a derived value
(nothing is stored), and the difference is returned as-is even when
negative: with budget 30 and a current-month total of 50 the rendered
remainder is -20, not clamped to zero. -/
theorem track_budget_remaining_correct :
    (∀ (st : AppState) (now : Date) (username : String) (v : BudgetView),
      track_budget st now username = Except.ok v →
      v.remaining_budget = get_user_monthly_budget st.user_data username - v.total_expenses ∧
      v.monthly_budget = get_user_monthly_budget st.user_data username ∧
      calculate_total_expenses st now username = Except.ok v.total_expenses) ∧
    track_budget overBudgetState ⟨2024, 5, 15⟩ "alice" = Except.ok ⟨30, 50, -20⟩ := by
  constructor
  · intro st now username v h
    rw [track_budget] at h
    cases hc : calculate_total_expenses st now username with
    | error e =>
      rw [hc] at h
      simp [bind, Except.bind] at h
    | ok t =>
      rw [hc] at h
      simp only [bind, Except.bind, pure, Except.pure, Except.ok.injEq] at h
      subst h
      exact ⟨ratSub_eq _ _, rfl, rfl⟩
  · decide

/-- Witness for C8 at the concrete over-budget state. -/
theorem track_budget_remaining_witness :
    (-20 : Rat) = get_user_monthly_budget overBudgetState.user_data "alice" - 50 := by
  have h :=
    (track_budget_remaining_correct.1 overBudgetState ⟨2024, 5, 15⟩ "alice" ⟨30, 50, -20⟩
      (by decide)).1
  simpa using h

/-- C4 (confirmed): when `save_expenses username` completes, the user's
pending records are gone from the cache, and the user's committed records
are exactly the old ones followed by each previously pending record of that
user exactly once — none lost, none duplicated. -/
theorem save_expenses_flush (st : AppState) (username : String) (st2 : AppState)
    (hs : save_expenses st username = Except.ok st2) :
    st2.expense_cache.filter (fun e => e.username == username) = [] ∧
    st2.expense_file.filter (fun r => r.username == username) =
      st.expense_file.filter (fun r => r.username == username) ++
        (st.expense_cache.filter (fun e => e.username == username)).map expToRow := by
  rw [save_expenses] at hs
  by_cases hany : (st.expense_cache.filter (fun e => e.username == username)).any
      (fun e => e.id.isSome) = true
  · rw [if_pos hany] at hs
    exact absurd hs (by simp)
  · rw [if_neg hany] at hs
    simp only [Except.ok.injEq] at hs
    subst hs
    constructor
    · dsimp only
      rw [List.filter_filter]
      apply List.filter_eq_nil_iff.mpr
      intro e _
      cases h : e.username == username <;> simp [h]
    · dsimp only
      rw [List.filter_append]
      congr 1
      apply List.filter_eq_self.mpr
      intro r hr
      rw [List.mem_map] at hr
      obtain ⟨e, he, rfl⟩ := hr
      have := (List.mem_filter.mp he).2
      simpa [expToRow] using this

/-- Witness for C4 at the concrete mixed state. -/
theorem save_expenses_flush_witness :
    savedMixedState.expense_cache.filter (fun e => e.username == "alice") = [] ∧
    savedMixedState.expense_file.filter (fun r => r.username == "alice") =
      mixedState.expense_file.filter (fun r => r.username == "alice") ++
        (mixedState.expense_cache.filter (fun e => e.username == "alice")).map expToRow :=
  save_expenses_flush mixedState "alice" savedMixedState (by decide)

/-- C10 (confirmed): a completed `save_expenses u` is frame-preserving for
every other user `v`: `v`'s committed records survive in the store in their
original relative order, and `v`'s pending records stay in the cache
unchanged. -/
theorem save_expenses_frame (st : AppState) (u v : String) (st2 : AppState)
    (hvu : v ≠ u) (hs : save_expenses st u = Except.ok st2) :
    st2.expense_file.filter (fun r => r.username == v) =
      st.expense_file.filter (fun r => r.username == v) ∧
    st2.expense_cache.filter (fun e => e.username == v) =
      st.expense_cache.filter (fun e => e.username == v) := by
  rw [save_expenses] at hs
  by_cases hany : (st.expense_cache.filter (fun e => e.username == u)).any
      (fun e => e.id.isSome) = true
  · rw [if_pos hany] at hs
    exact absurd hs (by simp)
  · rw [if_neg hany] at hs
    simp only [Except.ok.injEq] at hs
    subst hs
    constructor
    · dsimp only
      rw [List.filter_append]
      have hnil : ((st.expense_cache.filter (fun e => e.username == u)).map expToRow).filter
          (fun r => r.username == v) = [] := by
        apply List.filter_eq_nil_iff.mpr
        intro r hr
        rw [List.mem_map] at hr
        obtain ⟨e, he, rfl⟩ := hr
        have heu : e.username = u := beq_iff_eq.mp (List.mem_filter.mp he).2
        simp only [expToRow, heu, beq_iff_eq]
        exact fun hh => hvu hh.symm
      rw [hnil, List.append_nil]
    · dsimp only
      rw [List.filter_filter]
      apply List.filter_congr
      intro e _
      cases hev : e.username == v with
      | true =>
        have hev2 : e.username = v := beq_iff_eq.mp hev
        simp [hev2, hvu]
      | false => simp [hev]

/-- Witness for C10 at the concrete mixed state. -/
theorem save_expenses_frame_witness :
    savedMixedState.expense_file.filter (fun r => r.username == "bob") =
      mixedState.expense_file.filter (fun r => r.username == "bob") ∧
    savedMixedState.expense_cache.filter (fun e => e.username == "bob") =
      mixedState.expense_cache.filter (fun e => e.username == "bob") :=
  save_expenses_frame mixedState "alice" "bob" savedMixedState (by decide) (by decide)

/-- C5 (confirmed): when the edit lookup found the pending record and any of
the four validators rejects a patched field, `edit_expense` returns with the
cache exactly as it was — no partial update — and the outcome is a
validation error, neither a successful edit nor a not-found redirect. -/
theorem edit_expense_atomic (cache : List Expense) (username expense_id : String)
    (description amount date category : String) (found : List Expense)
    (p : EditResult × List Expense)
    (hf : exceptFilter (editMatches username expense_id) cache = Except.ok found)
    (hne : found ≠ [])
    (hv : validate_date date = false ∨ validate_amount amount = false ∨
      validate_category category = false ∨ validate_description description = false)
    (hres : edit_expense cache username expense_id description amount date category =
      Except.ok p) :
    p.2 = cache ∧ p.1 ≠ EditResult.edited ∧ p.1 ≠ EditResult.notFound := by
  have hfe : found.isEmpty = false := List.isEmpty_eq_false.mpr hne
  rw [edit_expense, hf] at hres
  cases hd : validate_date date <;> cases ha : validate_amount amount <;>
    cases hc : validate_category category <;> cases hds : validate_description description <;>
    simp only [hd, ha, hc, hds, hfe, bind, Except.bind, Bool.not_true, Bool.not_false,
      Bool.false_eq_true, if_true, if_false, ite_true, ite_false, pure, Except.pure,
      Except.ok.injEq] at hres <;>
    first
    | (subst hres; exact ⟨rfl, by simp, by simp⟩)
    | (rcases hv with h | h | h | h <;> simp_all)

/-- Witness for C5: alice's pending record with id "1" exists; an edit
patching the amount to "-10" is rejected and the cache is unchanged. -/
theorem edit_expense_atomic_witness :
    ((EditResult.invalidAmount, [aliceWithId]) : EditResult × List Expense).2 =
      [aliceWithId] ∧
    ((EditResult.invalidAmount, [aliceWithId]) : EditResult × List Expense).1 ≠
      EditResult.edited ∧
    ((EditResult.invalidAmount, [aliceWithId]) : EditResult × List Expense).1 ≠
      EditResult.notFound :=
  edit_expense_atomic [aliceWithId] "alice" "1" "new lunch" "-10" "2024-01-02" "Food"
    [aliceWithId] (EditResult.invalidAmount, [aliceWithId]) (by decide) (by decide)
    (Or.inr (Or.inl (by decide))) (by decide)

/-- C9 (confirmed): the `login_required` gate admits a request exactly when
the session is logged in and at most `TOKEN_TIMEOUT_MINUTES = 10` minutes of
absolute time have passed since the recorded login time; none of the
protected routes writes the session, so operations never extend the window,
and once more than 10 minutes have elapsed every protected operation is
refused (the state comes back untouched). -/
theorem login_required_timeout_spec :
    (∀ (now t : Rat) (sess : Session), sess.login_time = some t →
      (login_required_allows now sess = true ↔
        sess.logged_in = some true ∧ now - t ≤ TOKEN_TIMEOUT_MINUTES)) ∧
    (∀ (now : Rat) (sess : Session), sess.login_time = none →
      login_required_allows now sess = false) ∧
    (∀ now sess st date category amount description,
      (add_expense_route now sess st date category amount description).1 = sess) ∧
    (∀ now sess st, (save_expenses_route now sess st).1 = sess) ∧
    (∀ now sess st expense_id, (delete_expense_route now sess st expense_id).1 = sess) ∧
    (∀ now sess st expense_id description amount date category,
      (edit_expense_route now sess st expense_id description amount date category).1 =
        sess) ∧
    (∀ now sess st today, (track_budget_route now sess st today).1 = sess) ∧
    (∀ (now t : Rat) (sess : Session) (st : AppState) date category amount description,
      sess.login_time = some t → TOKEN_TIMEOUT_MINUTES < now - t →
      add_expense_route now sess st date category amount description = (sess, st)) := by
  refine ⟨?_, ?_, ?_, ?_, ?_, ?_, ?_, ?_⟩
  · intro now t sess ht
    rw [login_required_allows, has_token_timed_out, ht]
    simp [not_lt]
  · intro now sess ht
    rw [login_required_allows, has_token_timed_out, ht]
    simp
  · intro now sess st date category amount description
    rw [add_expense_route]
    split <;> rfl
  · intro now sess st
    rw [save_expenses_route]
    split <;> rfl
  · intro now sess st expense_id
    rw [delete_expense_route]
    split <;> rfl
  · intro now sess st expense_id description amount date category
    rw [edit_expense_route]
    split <;> rfl
  · intro now sess st today
    rw [track_budget_route]
    split <;> rfl
  · intro now t sess st date category amount description ht htime
    have hallow : login_required_allows now sess = false := by
      rw [login_required_allows, has_token_timed_out, ht]
      simp [decide_eq_true htime]
    rw [add_expense_route, hallow]
    simp

/-- Witness for C9: eleven minutes after login, an add on the protected
route is refused and changes nothing. -/
theorem login_required_timeout_witness :
    add_expense_route 11 ⟨some true, some "alice", some 0⟩ mixedState "2024-05-05" "Food"
      "1" "x" = (⟨some true, some "alice", some 0⟩, mixedState) :=
  login_required_timeout_spec.2.2.2.2.2.2.2 11 0 ⟨some true, some "alice", some 0⟩
    mixedState "2024-05-05" "Food" "1" "x" rfl (by norm_num [TOKEN_TIMEOUT_MINUTES])

end ExpenseTracker
